import Mathlib

/-!
Verification development for the MCP Python SDK core.

Shallow embedding of:
- the JSON-RPC wire types and their pydantic decode/encode behaviour
  (src/mcp_python/types.py),
- the server session initialization gate
  (src/mcp_python/server/session.py),
- the server handler dispatch loop (src/mcp_python/server/__init__.py,
  src/src/mcp/server/__init__.py),
- the client session initialize flow (src/mcp_python/client/session.py),
- the Streamable HTTP client transport's POST loop and session-id
  handling (src/src/mcp/client/streamable_http.py).
-/

namespace MCP

/-! ## JSON values

JSON values as handled by the Python `json` module / pydantic.  Numbers are
modelled as integers (no claim touches fractional values).  Objects are
association lists in document order; Python dicts parsed from JSON have
unique keys, which appears as a `NodupKeys` hypothesis where it matters. -/

inductive JVal where
  | jnull
  | jbool (b : Bool)
  | jnum (n : Int)
  | jstr (s : String)
  | jarr (elems : List JVal)
  | jobj (fields : List (String × JVal))
  deriving Repr

abbrev JObj := List (String × JVal)

def JVal.isNull : JVal → Bool
  | .jnull => true
  | _ => false

/-- First-match association-list lookup (Python dict access on parsed JSON,
where keys are unique). -/
def alookup {β : Type} (k : String) : List (String × β) → Option β
  | [] => none
  | (k', v) :: t => if k' = k then some v else alookup k t

/-- Lookup ignoring `null`-valued entries: the view of an object after
normalizing `"field": null` to an absent field (what pydantic's optional
fields with `None` defaults, and `exclude_none` dumping, identify). -/
def cleanLookup (k : String) (l : JObj) : Option JVal :=
  alookup k (l.filter fun q => !q.2.isNull)

def NodupKeys (l : JObj) : Prop := (l.map Prod.fst).Nodup

instance (l : JObj) : Decidable (NodupKeys l) := by
  unfold NodupKeys; infer_instance

/-! ## JSON-RPC envelopes (src/mcp_python/types.py)

`JSONRPCMessage = RootModel[JSONRPCRequest | JSONRPCNotification |
JSONRPCResponse | JSONRPCError]`, all four with `extra="allow"`.
Decoding tries the union members in declaration order; each member keeps
every undeclared field. -/

/-- `RequestId = str | int` (types.py line 104). -/
inductive RId where
  | str (s : String)
  | num (n : Int)
  deriving Repr, DecidableEq

def decodeId : JVal → Option RId
  | .jstr s => some (.str s)
  | .jnum n => some (.num n)
  | _ => none

def encodeId : RId → JVal
  | .str s => .jstr s
  | .num n => .jnum n

/-- `params: dict[str, Any] | None = None`: absent and `null` both decode to
`None`; any other non-object value is a validation failure. -/
def decodeOptObj : Option JVal → Option (Option JObj)
  | none => some none
  | some .jnull => some none
  | some (.jobj l) => some (some l)
  | some _ => none

/-- `data: Any | None = None` on `ErrorData`: absent and `null` give `None`,
anything else is kept as-is (never fails). -/
def decodeAnyOpt : Option JVal → Option JVal
  | none => none
  | some .jnull => none
  | some v => some v

structure JReqM where
  id : RId
  method : String
  params : Option JObj
  extra : JObj
  deriving Repr

structure JNotifM where
  method : String
  params : Option JObj
  extra : JObj
  deriving Repr

structure JRespM where
  id : RId
  result : JObj
  extra : JObj
  deriving Repr

structure ErrorDataM where
  code : Int
  message : String
  data : Option JVal
  extra : JObj
  deriving Repr

structure JErrM where
  id : RId
  error : ErrorDataM
  extra : JObj
  deriving Repr

inductive JMsg where
  | request (r : JReqM)
  | notif (n : JNotifM)
  | response (r : JRespM)
  | errorResp (e : JErrM)
  deriving Repr

/-- Membership test on the declared-field key sets. -/
def keyIn (ks : List String) (k : String) : Bool :=
  match ks with
  | [] => false
  | k' :: t => if k' = k then true else keyIn t k

def reqKeys : List String := ["jsonrpc", "id", "method", "params"]

def notifKeys : List String := ["jsonrpc", "method", "params"]

def respKeys : List String := ["jsonrpc", "id", "result"]

def errKeys : List String := ["jsonrpc", "id", "error"]

def errDataKeys : List String := ["code", "message", "data"]

/-- `JSONRPCRequest`: `jsonrpc: Literal["2.0"]`, `id: str | int`,
`method: str`, `params: dict | None = None`, extra allowed. -/
def decodeRequest (l : JObj) : Option JReqM :=
  match alookup "jsonrpc" l, (alookup "id" l).bind decodeId,
        alookup "method" l, decodeOptObj (alookup "params" l) with
  | some (.jstr "2.0"), some i, some (.jstr m), some p =>
      some { id := i, method := m, params := p,
             extra := l.filter fun q => !(keyIn reqKeys q.1) }
  | _, _, _, _ => none

/-- `JSONRPCNotification`: like a request but without `id`. -/
def decodeNotif (l : JObj) : Option JNotifM :=
  match alookup "jsonrpc" l, alookup "method" l,
        decodeOptObj (alookup "params" l) with
  | some (.jstr "2.0"), some (.jstr m), some p =>
      some { method := m, params := p,
             extra := l.filter fun q => !(keyIn notifKeys q.1) }
  | _, _, _ => none

/-- `JSONRPCResponse`: `result: dict[str, Any]` is required and must be an
object. -/
def decodeResponse (l : JObj) : Option JRespM :=
  match alookup "jsonrpc" l, (alookup "id" l).bind decodeId,
        alookup "result" l with
  | some (.jstr "2.0"), some i, some (.jobj r) =>
      some { id := i, result := r,
             extra := l.filter fun q => !(keyIn respKeys q.1) }
  | _, _, _ => none

/-- `ErrorData`: `code: int`, `message: str`, `data: Any | None = None`,
extra allowed. -/
def decodeErrorData (l : JObj) : Option ErrorDataM :=
  match alookup "code" l, alookup "message" l with
  | some (.jnum c), some (.jstr m) =>
      some { code := c, message := m,
             data := decodeAnyOpt (alookup "data" l),
             extra := l.filter fun q => !(keyIn errDataKeys q.1) }
  | _, _ => none

/-- `JSONRPCError`: `id: str | int`, `error: ErrorData`, extra allowed. -/
def decodeError (l : JObj) : Option JErrM :=
  match alookup "jsonrpc" l, (alookup "id" l).bind decodeId,
        alookup "error" l with
  | some (.jstr "2.0"), some i, some (.jobj e) =>
      (decodeErrorData e).map fun ed =>
        { id := i, error := ed,
          extra := l.filter fun q => !(keyIn errKeys q.1) }
  | _, _, _ => none

/-- Union decode in declaration order (pydantic tries `JSONRPCRequest`,
then `JSONRPCNotification`, then `JSONRPCResponse`, then `JSONRPCError`). -/
def decodeMessage (l : JObj) : Option JMsg :=
  match decodeRequest l with
  | some r => some (.request r)
  | none =>
    match decodeNotif l with
    | some n => some (.notif n)
    | none =>
      match decodeResponse l with
      | some r => some (.response r)
      | none =>
        match decodeError l with
        | some e => some (.errorResp e)
        | none => none

def encodeOptObjField (k : String) : Option JObj → JObj
  | some l => [(k, .jobj l)]
  | none => []

def encodeOptAnyField (k : String) : Option JVal → JObj
  | some v => [(k, v)]
  | none => []

def encodeRequest (r : JReqM) : JObj :=
  [("jsonrpc", .jstr "2.0"), ("id", encodeId r.id), ("method", .jstr r.method)]
    ++ encodeOptObjField "params" r.params ++ r.extra

def encodeNotif (n : JNotifM) : JObj :=
  [("jsonrpc", .jstr "2.0"), ("method", .jstr n.method)]
    ++ encodeOptObjField "params" n.params ++ n.extra

def encodeResponse (r : JRespM) : JObj :=
  [("jsonrpc", .jstr "2.0"), ("id", encodeId r.id), ("result", .jobj r.result)]
    ++ r.extra

def encodeErrorData (e : ErrorDataM) : JObj :=
  [("code", .jnum e.code), ("message", .jstr e.message)]
    ++ encodeOptAnyField "data" e.data ++ e.extra

def encodeError (e : JErrM) : JObj :=
  [("jsonrpc", .jstr "2.0"), ("id", encodeId e.id),
   ("error", .jobj (encodeErrorData e.error))]
    ++ e.extra

def encodeMessage : JMsg → JObj
  | .request r => encodeRequest r
  | .notif n => encodeNotif n
  | .response r => encodeResponse r
  | .errorResp e => encodeError e

/-! ### Semantic equality of JSON-RPC objects

Two objects are semantically equal when every key resolves to the same
value once `null`-valued entries are erased (a `"params": null` and an
absent `params` mean the same message).  The only level the codec
reassembles inside the envelope is the `error` member, so the comparison
descends one level into object-valued members and is syntactic below. -/

def objEq0 (l1 l2 : JObj) : Prop := ∀ k, cleanLookup k l1 = cleanLookup k l2

def valEq1 : Option JVal → Option JVal → Prop
  | some (.jobj a), some (.jobj b) => objEq0 a b
  | a, b => a = b

def objEq1 (l1 l2 : JObj) : Prop := ∀ k, valEq1 (cleanLookup k l1) (cleanLookup k l2)

theorem valEq1_refl (x : Option JVal) : valEq1 x x := by
  unfold valEq1
  split
  · intro k; rfl
  · rfl

/-! ### Lookup lemmas -/

theorem alookup_append {β : Type} (k : String) (l1 l2 : List (String × β)) :
    alookup k (l1 ++ l2) = (alookup k l1).orElse fun _ => alookup k l2 := by
  induction l1 with
  | nil => rfl
  | cons p t ih =>
    by_cases h : p.1 = k
    · simp [alookup, h]
    · simp [alookup, h, ih]

theorem alookup_eq_none_of_not_mem {β : Type} (k : String)
    (l : List (String × β)) (h : k ∉ l.map Prod.fst) : alookup k l = none := by
  induction l with
  | nil => rfl
  | cons p t ih =>
    simp only [List.map_cons, List.mem_cons] at h
    push_neg at h
    have hne : ¬(p.1 = k) := fun he => h.1 he.symm
    simp only [alookup, if_neg hne]
    exact ih h.2

theorem alookup_filter_none {β : Type} (p : String × β → Bool) (k : String)
    (l : List (String × β)) (h : alookup k l = none) :
    alookup k (l.filter p) = none := by
  induction l with
  | nil => rfl
  | cons q t ih =>
    by_cases hq : q.1 = k
    · simp [alookup, hq] at h
    · simp only [alookup, hq, if_false] at h
      rw [List.filter_cons]
      by_cases hp : p q
      · simp only [hp, if_true, alookup, hq, if_false]
        exact ih h
      · simp only [hp, if_false]
        exact ih h

theorem cleanLookup_cons_null (k : String) (q : String × JVal) (t : JObj)
    (h : q.2.isNull = true) : cleanLookup k (q :: t) = cleanLookup k t := by
  unfold cleanLookup
  rw [List.filter_cons]
  simp [h]

theorem cleanLookup_cons_notnull (k : String) (q : String × JVal) (t : JObj)
    (h : q.2.isNull = false) :
    cleanLookup k (q :: t) = if q.1 = k then some q.2 else cleanLookup k t := by
  unfold cleanLookup
  rw [List.filter_cons]
  simp [h, alookup]

theorem cleanLookup_append (k : String) (l1 l2 : JObj) :
    cleanLookup k (l1 ++ l2) = (cleanLookup k l1).orElse fun _ => cleanLookup k l2 := by
  unfold cleanLookup
  rw [List.filter_append, alookup_append]

theorem cleanLookup_none_of_lookup_none (k : String) (l : JObj)
    (h : alookup k l = none) : cleanLookup k l = none :=
  alookup_filter_none _ k l h

theorem cleanLookup_of_lookup (k : String) (l : JObj) (v : JVal)
    (hn : NodupKeys l) (h : alookup k l = some v) (hv : v.isNull = false) :
    cleanLookup k l = some v := by
  induction l with
  | nil => simp [alookup] at h
  | cons q t ih =>
    simp only [NodupKeys, List.map_cons, List.nodup_cons] at hn
    by_cases hq : q.1 = k
    · simp only [alookup, hq, if_true, Option.some_inj] at h
      rw [cleanLookup_cons_notnull k q t (h ▸ hv), if_pos hq, h]
    · simp only [alookup, hq, if_false] at h
      have ht := ih hn.2 h
      by_cases hnull : q.2.isNull
      · rw [cleanLookup_cons_null k q t hnull]; exact ht
      · rw [cleanLookup_cons_notnull k q t (by simpa using hnull), if_neg hq]
        exact ht

theorem cleanLookup_none_of_lookup_null (k : String) (l : JObj)
    (hn : NodupKeys l) (h : alookup k l = some .jnull) :
    cleanLookup k l = none := by
  induction l with
  | nil => rfl
  | cons q t ih =>
    simp only [NodupKeys, List.map_cons, List.nodup_cons] at hn
    by_cases hq : q.1 = k
    · simp only [alookup, hq, if_true, Option.some_inj] at h
      have ht : alookup k t = none := by
        apply alookup_eq_none_of_not_mem
        rw [hq] at hn
        exact hn.1
      rw [cleanLookup_cons_null k q t (by rw [h]; rfl)]
      exact cleanLookup_none_of_lookup_none k t ht
    · simp only [alookup, hq, if_false] at h
      have ht := ih hn.2 h
      by_cases hnull : q.2.isNull
      · rw [cleanLookup_cons_null k q t hnull]; exact ht
      · rw [cleanLookup_cons_notnull k q t (by simpa using hnull), if_neg hq]
        exact ht

theorem cleanLookup_filter_keyin (p : String → Bool) (k : String) (l : JObj)
    (hk : p k = true) :
    cleanLookup k (l.filter fun q => p q.1) = cleanLookup k l := by
  induction l with
  | nil => rfl
  | cons q t ih =>
    rw [List.filter_cons]
    by_cases hp : p q.1
    · simp only [hp, if_true]
      by_cases hnull : q.2.isNull
      · rw [cleanLookup_cons_null k q _ hnull, cleanLookup_cons_null k q t hnull]
        exact ih
      · rw [cleanLookup_cons_notnull k q _ (by simpa using hnull),
            cleanLookup_cons_notnull k q t (by simpa using hnull)]
        by_cases hq : q.1 = k
        · rw [if_pos hq, if_pos hq]
        · rw [if_neg hq, if_neg hq]; exact ih
    · simp only [hp, if_false]
      have hq : ¬(q.1 = k) := by
        intro he; rw [he, hk] at hp; exact absurd hp (by decide)
      by_cases hnull : q.2.isNull
      · rw [cleanLookup_cons_null k q t hnull]; exact ih
      · rw [cleanLookup_cons_notnull k q t (by simpa using hnull), if_neg hq]
        exact ih

theorem cleanLookup_filter_keyout (p : String → Bool) (k : String) (l : JObj)
    (hk : p k = false) :
    cleanLookup k (l.filter fun q => p q.1) = none := by
  induction l with
  | nil => rfl
  | cons q t ih =>
    rw [List.filter_cons]
    by_cases hp : p q.1
    · have hq : ¬(q.1 = k) := by
        intro he; rw [he, hk] at hp; exact absurd hp (by decide)
      simp only [hp, if_true]
      by_cases hnull : q.2.isNull
      · rw [cleanLookup_cons_null k q _ hnull]; exact ih
      · rw [cleanLookup_cons_notnull k q _ (by simpa using hnull), if_neg hq]
        exact ih
    · simp only [hp, if_false]
      exact ih

theorem encodeId_not_null (i : RId) : (encodeId i).isNull = false := by
  cases i <;> rfl

theorem decodeId_encode (v : JVal) (i : RId) (h : decodeId v = some i) :
    encodeId i = v := by
  cases v <;> simp [decodeId] at h <;> simp [← h, encodeId]

theorem decodeId_not_null (v : JVal) (i : RId) (h : decodeId v = some i) :
    v.isNull = false := by
  cases v <;> simp [decodeId] at h <;> rfl

theorem decodeOptObj_some_some (x : Option JVal) (pl : JObj)
    (h : decodeOptObj x = some (some pl)) : x = some (.jobj pl) := by
  match x with
  | none => simp [decodeOptObj] at h
  | some .jnull => simp [decodeOptObj] at h
  | some (.jobj l) => simp [decodeOptObj] at h; rw [h]
  | some (.jbool b) => simp [decodeOptObj] at h
  | some (.jnum n) => simp [decodeOptObj] at h
  | some (.jstr s) => simp [decodeOptObj] at h
  | some (.jarr a) => simp [decodeOptObj] at h

theorem decodeOptObj_some_none (x : Option JVal)
    (h : decodeOptObj x = some none) : x = none ∨ x = some .jnull := by
  match x with
  | none => exact Or.inl rfl
  | some .jnull => exact Or.inr rfl
  | some (.jobj l) => simp [decodeOptObj] at h
  | some (.jbool b) => simp [decodeOptObj] at h
  | some (.jnum n) => simp [decodeOptObj] at h
  | some (.jstr s) => simp [decodeOptObj] at h
  | some (.jarr a) => simp [decodeOptObj] at h

theorem decodeAnyOpt_some (x : Option JVal) (v : JVal)
    (h : decodeAnyOpt x = some v) : x = some v ∧ v.isNull = false := by
  match x with
  | none => simp [decodeAnyOpt] at h
  | some .jnull => simp [decodeAnyOpt] at h
  | some (.jobj l) => simp [decodeAnyOpt] at h; subst h; exact ⟨rfl, rfl⟩
  | some (.jbool b) => simp [decodeAnyOpt] at h; subst h; exact ⟨rfl, rfl⟩
  | some (.jnum n) => simp [decodeAnyOpt] at h; subst h; exact ⟨rfl, rfl⟩
  | some (.jstr s) => simp [decodeAnyOpt] at h; subst h; exact ⟨rfl, rfl⟩
  | some (.jarr a) => simp [decodeAnyOpt] at h; subst h; exact ⟨rfl, rfl⟩

theorem decodeAnyOpt_none (x : Option JVal)
    (h : decodeAnyOpt x = none) : x = none ∨ x = some .jnull := by
  match x with
  | none => exact Or.inl rfl
  | some .jnull => exact Or.inr rfl
  | some (.jobj l) => simp [decodeAnyOpt] at h
  | some (.jbool b) => simp [decodeAnyOpt] at h
  | some (.jnum n) => simp [decodeAnyOpt] at h
  | some (.jstr s) => simp [decodeAnyOpt] at h
  | some (.jarr a) => simp [decodeAnyOpt] at h

theorem keyIn_cons (k' k : String) (t : List String) :
    keyIn (k' :: t) k = if k' = k then true else keyIn t k := rfl

/-! ### Round-trip for each envelope variant -/

theorem cleanLookup_req_head (k : String) (i : RId) (m : String) :
    cleanLookup k
        [("jsonrpc", .jstr "2.0"), ("id", encodeId i), ("method", .jstr m)] =
      if "jsonrpc" = k then some (.jstr "2.0")
      else if "id" = k then some (encodeId i)
      else if "method" = k then some (.jstr m)
      else none := by
  rw [cleanLookup_cons_notnull k ("jsonrpc", .jstr "2.0")
        [("id", encodeId i), ("method", .jstr m)] rfl,
      cleanLookup_cons_notnull k ("id", encodeId i)
        [("method", .jstr m)] (encodeId_not_null i),
      cleanLookup_cons_notnull k ("method", .jstr m) [] rfl]
  rfl

theorem cleanLookup_optObjField (k x : String) (p : Option JObj) (hx : ¬(x = k)) :
    cleanLookup k (encodeOptObjField x p) = none := by
  cases p with
  | none => rfl
  | some pl =>
    rw [encodeOptObjField, cleanLookup_cons_notnull k (x, .jobj pl) [] rfl,
        if_neg hx]
    rfl

theorem cleanLookup_optAnyField (k x : String) (v : Option JVal) (hx : ¬(x = k)) :
    cleanLookup k (encodeOptAnyField x v) = none := by
  cases v with
  | none => rfl
  | some w =>
    rw [encodeOptAnyField]
    by_cases hw : w.isNull
    · rw [cleanLookup_cons_null k (x, w) [] hw]; rfl
    · rw [cleanLookup_cons_notnull k (x, w) [] (by simpa using hw), if_neg hx]
      rfl

theorem cleanLookup_extras_out (ks : List String) (k : String) (l : JObj)
    (hk : keyIn ks k = true) :
    cleanLookup k (l.filter fun q => !keyIn ks q.1) = none :=
  cleanLookup_filter_keyout (fun s => !keyIn ks s) k l
    (show (!keyIn ks k) = false by rw [hk]; rfl)

theorem cleanLookup_extras_in (ks : List String) (k : String) (l : JObj)
    (hk : keyIn ks k = false) :
    cleanLookup k (l.filter fun q => !keyIn ks q.1) = cleanLookup k l :=
  cleanLookup_filter_keyin (fun s => !keyIn ks s) k l
    (show (!keyIn ks k) = true by rw [hk]; rfl)

theorem request_roundtrip (l : JObj) (r : JReqM) (hn : NodupKeys l)
    (h : decodeRequest l = some r) : objEq1 (encodeRequest r) l := by
  unfold decodeRequest at h
  split at h
  case _ i m p heq1 heq2 heq3 heq4 =>
    obtain ⟨vid, hvid, hdec⟩ : ∃ v, alookup "id" l = some v ∧ decodeId v = some i := by
      cases hx : alookup "id" l with
      | none => rw [hx] at heq2; simp at heq2
      | some v => rw [hx] at heq2; exact ⟨v, rfl, by simpa using heq2⟩
    injection h with h
    subst h
    intro k
    -- left side: the re-encoded object, split into head, params field, extras
    rw [encodeRequest, cleanLookup_append, cleanLookup_append]
    dsimp only
    by_cases hk1 : k = "jsonrpc"
    · subst hk1
      rw [cleanLookup_req_head, if_pos rfl,
          cleanLookup_of_lookup _ _ _ hn heq1 rfl]
      exact valEq1_refl (some (.jstr "2.0"))
    · by_cases hk2 : k = "id"
      · subst hk2
        rw [cleanLookup_req_head, if_neg (by decide), if_pos rfl,
            decodeId_encode _ _ hdec,
            cleanLookup_of_lookup _ _ _ hn hvid (decodeId_not_null _ _ hdec)]
        exact valEq1_refl (some vid)
      · by_cases hk3 : k = "method"
        · subst hk3
          rw [cleanLookup_req_head, if_neg (by decide), if_neg (by decide),
              if_pos rfl, cleanLookup_of_lookup _ _ _ hn heq3 rfl]
          exact valEq1_refl (some (.jstr m))
        · by_cases hk4 : k = "params"
          · subst hk4
            rw [cleanLookup_req_head, if_neg (by decide), if_neg (by decide),
                if_neg (by decide)]
            cases p with
            | some pl =>
              have hpl := decodeOptObj_some_some _ _ heq4
              rw [cleanLookup_of_lookup _ _ _ hn hpl rfl,
                  show cleanLookup "params" (encodeOptObjField "params" (some pl)) =
                    some (.jobj pl) by
                  rw [encodeOptObjField,
                      cleanLookup_cons_notnull "params" ("params", .jobj pl) [] rfl,
                      if_pos rfl]]
              exact valEq1_refl (some (.jobj pl))
            | none =>
              have hcl : cleanLookup "params" l = none := by
                rcases decodeOptObj_some_none _ heq4 with hx | hx
                · exact cleanLookup_none_of_lookup_none _ _ hx
                · exact cleanLookup_none_of_lookup_null _ _ hn hx
              rw [hcl]
              show valEq1
                (cleanLookup "params" (l.filter fun q => !keyIn reqKeys q.1)) none
              rw [cleanLookup_extras_out reqKeys "params" l (by decide)]
              exact valEq1_refl none
          · -- k is not a declared key: only the preserved extras matter
            rw [cleanLookup_req_head,
                if_neg (fun he => hk1 he.symm), if_neg (fun he => hk2 he.symm),
                if_neg (fun he => hk3 he.symm),
                cleanLookup_optObjField k "params" p (fun he => hk4 he.symm)]
            have hkeyIn : keyIn reqKeys k = false := by
              simp only [reqKeys, keyIn_cons,
                  if_neg (fun he : "jsonrpc" = k => hk1 he.symm),
                  if_neg (fun he : "id" = k => hk2 he.symm),
                  if_neg (fun he : "method" = k => hk3 he.symm),
                  if_neg (fun he : "params" = k => hk4 he.symm)]
              rfl
            show valEq1 (cleanLookup k (l.filter fun q => !keyIn reqKeys q.1))
              (cleanLookup k l)
            rw [cleanLookup_extras_in reqKeys k l hkeyIn]
            exact valEq1_refl (cleanLookup k l)
  all_goals exact absurd h (by simp)

theorem cleanLookup_notif_head (k : String) (m : String) :
    cleanLookup k [("jsonrpc", .jstr "2.0"), ("method", .jstr m)] =
      if "jsonrpc" = k then some (.jstr "2.0")
      else if "method" = k then some (.jstr m)
      else none := by
  rw [cleanLookup_cons_notnull k ("jsonrpc", .jstr "2.0")
        [("method", .jstr m)] rfl,
      cleanLookup_cons_notnull k ("method", .jstr m) [] rfl]
  rfl

theorem notif_roundtrip (l : JObj) (n : JNotifM) (hn : NodupKeys l)
    (h : decodeNotif l = some n) : objEq1 (encodeNotif n) l := by
  unfold decodeNotif at h
  split at h
  case _ m p heq1 heq2 heq3 =>
    injection h with h
    subst h
    intro k
    rw [encodeNotif, cleanLookup_append, cleanLookup_append]
    dsimp only
    by_cases hk1 : k = "jsonrpc"
    · subst hk1
      rw [cleanLookup_notif_head, if_pos rfl,
          cleanLookup_of_lookup _ _ _ hn heq1 rfl]
      exact valEq1_refl (some (.jstr "2.0"))
    · by_cases hk2 : k = "method"
      · subst hk2
        rw [cleanLookup_notif_head, if_neg (by decide), if_pos rfl,
            cleanLookup_of_lookup _ _ _ hn heq2 rfl]
        exact valEq1_refl (some (.jstr m))
      · by_cases hk3 : k = "params"
        · subst hk3
          rw [cleanLookup_notif_head, if_neg (by decide), if_neg (by decide)]
          cases p with
          | some pl =>
            have hpl := decodeOptObj_some_some _ _ heq3
            rw [cleanLookup_of_lookup _ _ _ hn hpl rfl,
                show cleanLookup "params" (encodeOptObjField "params" (some pl)) =
                  some (.jobj pl) by
                rw [encodeOptObjField,
                    cleanLookup_cons_notnull "params" ("params", .jobj pl) [] rfl,
                    if_pos rfl]]
            exact valEq1_refl (some (.jobj pl))
          | none =>
            have hcl : cleanLookup "params" l = none := by
              rcases decodeOptObj_some_none _ heq3 with hx | hx
              · exact cleanLookup_none_of_lookup_none _ _ hx
              · exact cleanLookup_none_of_lookup_null _ _ hn hx
            rw [hcl]
            show valEq1
              (cleanLookup "params" (l.filter fun q => !keyIn notifKeys q.1)) none
            rw [cleanLookup_extras_out notifKeys "params" l (by decide)]
            exact valEq1_refl none
        · rw [cleanLookup_notif_head,
              if_neg (fun he => hk1 he.symm), if_neg (fun he => hk2 he.symm),
              cleanLookup_optObjField k "params" p (fun he => hk3 he.symm)]
          have hkeyIn : keyIn notifKeys k = false := by
            simp only [notifKeys, keyIn_cons,
                if_neg (fun he : "jsonrpc" = k => hk1 he.symm),
                if_neg (fun he : "method" = k => hk2 he.symm),
                if_neg (fun he : "params" = k => hk3 he.symm)]
            rfl
          show valEq1 (cleanLookup k (l.filter fun q => !keyIn notifKeys q.1))
            (cleanLookup k l)
          rw [cleanLookup_extras_in notifKeys k l hkeyIn]
          exact valEq1_refl (cleanLookup k l)
  all_goals exact absurd h (by simp)

theorem cleanLookup_resp_head (k : String) (i : RId) (res : JObj) :
    cleanLookup k
        [("jsonrpc", .jstr "2.0"), ("id", encodeId i), ("result", .jobj res)] =
      if "jsonrpc" = k then some (.jstr "2.0")
      else if "id" = k then some (encodeId i)
      else if "result" = k then some (.jobj res)
      else none := by
  rw [cleanLookup_cons_notnull k ("jsonrpc", .jstr "2.0")
        [("id", encodeId i), ("result", .jobj res)] rfl,
      cleanLookup_cons_notnull k ("id", encodeId i)
        [("result", .jobj res)] (encodeId_not_null i),
      cleanLookup_cons_notnull k ("result", .jobj res) [] rfl]
  rfl

theorem response_roundtrip (l : JObj) (r : JRespM) (hn : NodupKeys l)
    (h : decodeResponse l = some r) : objEq1 (encodeResponse r) l := by
  unfold decodeResponse at h
  split at h
  case _ i res heq1 heq2 heq3 =>
    obtain ⟨vid, hvid, hdec⟩ : ∃ v, alookup "id" l = some v ∧ decodeId v = some i := by
      cases hx : alookup "id" l with
      | none => rw [hx] at heq2; simp at heq2
      | some v => rw [hx] at heq2; exact ⟨v, rfl, by simpa using heq2⟩
    injection h with h
    subst h
    intro k
    rw [encodeResponse, cleanLookup_append]
    dsimp only
    by_cases hk1 : k = "jsonrpc"
    · subst hk1
      rw [cleanLookup_resp_head, if_pos rfl,
          cleanLookup_of_lookup _ _ _ hn heq1 rfl]
      exact valEq1_refl (some (.jstr "2.0"))
    · by_cases hk2 : k = "id"
      · subst hk2
        rw [cleanLookup_resp_head, if_neg (by decide), if_pos rfl,
            decodeId_encode _ _ hdec,
            cleanLookup_of_lookup _ _ _ hn hvid (decodeId_not_null _ _ hdec)]
        exact valEq1_refl (some vid)
      · by_cases hk3 : k = "result"
        · subst hk3
          rw [cleanLookup_resp_head, if_neg (by decide), if_neg (by decide),
              if_pos rfl, cleanLookup_of_lookup _ _ _ hn heq3 rfl]
          exact valEq1_refl (some (.jobj res))
        · rw [cleanLookup_resp_head,
              if_neg (fun he => hk1 he.symm), if_neg (fun he => hk2 he.symm),
              if_neg (fun he => hk3 he.symm)]
          have hkeyIn : keyIn respKeys k = false := by
            simp only [respKeys, keyIn_cons,
                if_neg (fun he : "jsonrpc" = k => hk1 he.symm),
                if_neg (fun he : "id" = k => hk2 he.symm),
                if_neg (fun he : "result" = k => hk3 he.symm)]
            rfl
          show valEq1 (cleanLookup k (l.filter fun q => !keyIn respKeys q.1))
            (cleanLookup k l)
          rw [cleanLookup_extras_in respKeys k l hkeyIn]
          exact valEq1_refl (cleanLookup k l)
  all_goals exact absurd h (by simp)

theorem cleanLookup_errdata_head (k : String) (c : Int) (m : String) :
    cleanLookup k [("code", .jnum c), ("message", .jstr m)] =
      if "code" = k then some (.jnum c)
      else if "message" = k then some (.jstr m)
      else none := by
  rw [cleanLookup_cons_notnull k ("code", .jnum c) [("message", .jstr m)] rfl,
      cleanLookup_cons_notnull k ("message", .jstr m) [] rfl]
  rfl

theorem errordata_roundtrip (ef : JObj) (ed : ErrorDataM) (hn : NodupKeys ef)
    (h : decodeErrorData ef = some ed) : objEq0 (encodeErrorData ed) ef := by
  unfold decodeErrorData at h
  split at h
  case _ c m heq1 heq2 =>
    injection h with h
    subst h
    intro k
    rw [encodeErrorData, cleanLookup_append, cleanLookup_append]
    dsimp only
    by_cases hk1 : k = "code"
    · subst hk1
      rw [cleanLookup_errdata_head, if_pos rfl,
          cleanLookup_of_lookup _ _ _ hn heq1 rfl]
      rfl
    · by_cases hk2 : k = "message"
      · subst hk2
        rw [cleanLookup_errdata_head, if_neg (by decide), if_pos rfl,
            cleanLookup_of_lookup _ _ _ hn heq2 rfl]
        rfl
      · by_cases hk3 : k = "data"
        · subst hk3
          rw [cleanLookup_errdata_head, if_neg (by decide), if_neg (by decide)]
          cases hdata : decodeAnyOpt (alookup "data" ef) with
          | some v =>
            obtain ⟨hv, hvnull⟩ := decodeAnyOpt_some _ _ hdata
            rw [cleanLookup_of_lookup _ _ _ hn hv hvnull,
                show cleanLookup "data" (encodeOptAnyField "data" (some v)) =
                  some v by
                rw [encodeOptAnyField,
                    cleanLookup_cons_notnull "data" ("data", v) [] hvnull,
                    if_pos rfl]]
            rfl
          | none =>
            have hcl : cleanLookup "data" ef = none := by
              rcases decodeAnyOpt_none _ hdata with hx | hx
              · exact cleanLookup_none_of_lookup_none _ _ hx
              · exact cleanLookup_none_of_lookup_null _ _ hn hx
            rw [hcl]
            show (cleanLookup "data" (ef.filter fun q => !keyIn errDataKeys q.1))
              = none
            rw [cleanLookup_extras_out errDataKeys "data" ef (by decide)]
        · rw [cleanLookup_errdata_head,
              if_neg (fun he => hk1 he.symm), if_neg (fun he => hk2 he.symm),
              cleanLookup_optAnyField k "data" _ (fun he => hk3 he.symm)]
          have hkeyIn : keyIn errDataKeys k = false := by
            simp only [errDataKeys, keyIn_cons,
                if_neg (fun he : "code" = k => hk1 he.symm),
                if_neg (fun he : "message" = k => hk2 he.symm),
                if_neg (fun he : "data" = k => hk3 he.symm)]
            rfl
          show (cleanLookup k (ef.filter fun q => !keyIn errDataKeys q.1))
            = cleanLookup k ef
          rw [cleanLookup_extras_in errDataKeys k ef hkeyIn]
  all_goals exact absurd h (by simp)

theorem cleanLookup_err_head (k : String) (i : RId) (ev : JObj) :
    cleanLookup k
        [("jsonrpc", .jstr "2.0"), ("id", encodeId i), ("error", .jobj ev)] =
      if "jsonrpc" = k then some (.jstr "2.0")
      else if "id" = k then some (encodeId i)
      else if "error" = k then some (.jobj ev)
      else none := by
  rw [cleanLookup_cons_notnull k ("jsonrpc", .jstr "2.0")
        [("id", encodeId i), ("error", .jobj ev)] rfl,
      cleanLookup_cons_notnull k ("id", encodeId i)
        [("error", .jobj ev)] (encodeId_not_null i),
      cleanLookup_cons_notnull k ("error", .jobj ev) [] rfl]
  rfl

theorem error_roundtrip (l : JObj) (e : JErrM) (hn : NodupKeys l)
    (hne : ∀ ef, alookup "error" l = some (.jobj ef) → NodupKeys ef)
    (h : decodeError l = some e) : objEq1 (encodeError e) l := by
  unfold decodeError at h
  split at h
  case _ i ef heq1 heq2 heq3 =>
    obtain ⟨vid, hvid, hdec⟩ : ∃ v, alookup "id" l = some v ∧ decodeId v = some i := by
      cases hx : alookup "id" l with
      | none => rw [hx] at heq2; simp at heq2
      | some v => rw [hx] at heq2; exact ⟨v, rfl, by simpa using heq2⟩
    cases hed : decodeErrorData ef with
    | none => rw [hed] at h; simp at h
    | some ed =>
      rw [hed] at h
      simp only [Option.map_some'] at h
      injection h with h
      subst h
      intro k
      rw [encodeError, cleanLookup_append]
      dsimp only
      by_cases hk1 : k = "jsonrpc"
      · subst hk1
        rw [cleanLookup_err_head, if_pos rfl,
            cleanLookup_of_lookup _ _ _ hn heq1 rfl]
        exact valEq1_refl (some (.jstr "2.0"))
      · by_cases hk2 : k = "id"
        · subst hk2
          rw [cleanLookup_err_head, if_neg (by decide), if_pos rfl,
              decodeId_encode _ _ hdec,
              cleanLookup_of_lookup _ _ _ hn hvid (decodeId_not_null _ _ hdec)]
          exact valEq1_refl (some vid)
        · by_cases hk3 : k = "error"
          · subst hk3
            rw [cleanLookup_err_head, if_neg (by decide), if_neg (by decide),
                if_pos rfl, cleanLookup_of_lookup _ _ _ hn heq3 rfl]
            show objEq0 (encodeErrorData ed) ef
            exact errordata_roundtrip ef ed (hne ef heq3) hed
          · rw [cleanLookup_err_head,
                if_neg (fun he => hk1 he.symm), if_neg (fun he => hk2 he.symm),
                if_neg (fun he => hk3 he.symm)]
            have hkeyIn : keyIn errKeys k = false := by
              simp only [errKeys, keyIn_cons,
                  if_neg (fun he : "jsonrpc" = k => hk1 he.symm),
                  if_neg (fun he : "id" = k => hk2 he.symm),
                  if_neg (fun he : "error" = k => hk3 he.symm)]
              rfl
            show valEq1 (cleanLookup k (l.filter fun q => !keyIn errKeys q.1))
              (cleanLookup k l)
            rw [cleanLookup_extras_in errKeys k l hkeyIn]
            exact valEq1_refl (cleanLookup k l)
  all_goals exact absurd h (by simp)

/-- C4: for every valid JSONRPCMessage (any of the four envelope variants,
possibly carrying extra fields beyond the declared ones), decoding it from
JSON and re-encoding it yields a semantically equal value with the extra
fields preserved. -/
theorem jsonrpc_message_roundtrip (l : JObj) (m : JMsg)
    (hn : NodupKeys l)
    (hne : ∀ ef, alookup "error" l = some (.jobj ef) → NodupKeys ef)
    (h : decodeMessage l = some m) : objEq1 (encodeMessage m) l := by
  unfold decodeMessage at h
  cases hr : decodeRequest l with
  | some r =>
    rw [hr] at h
    injection h with h
    subst h
    exact request_roundtrip l r hn hr
  | none =>
    rw [hr] at h
    cases hnt : decodeNotif l with
    | some n =>
      rw [hnt] at h
      injection h with h
      subst h
      exact notif_roundtrip l n hn hnt
    | none =>
      rw [hnt] at h
      cases hrs : decodeResponse l with
      | some r =>
        rw [hrs] at h
        injection h with h
        subst h
        exact response_roundtrip l r hn hrs
      | none =>
        rw [hrs] at h
        cases herr : decodeError l with
        | some e =>
          rw [herr] at h
          injection h with h
          subst h
          exact error_roundtrip l e hn hne herr
        | none => rw [herr] at h; exact absurd h (by simp)

/-- A concrete JSON-RPC error envelope carrying extra fields at both
levels. -/
def fieldsEx : JObj :=
  [("jsonrpc", .jstr "2.0"), ("id", .jnum 1),
   ("error", .jobj [("code", .jnum (-32600)),
                    ("message", .jstr "Session terminated"),
                    ("retriable", .jbool false)]),
   ("trace", .jstr "x")]

def msgEx : JMsg :=
  .errorResp
    { id := .num 1
    , error :=
        { code := -32600, message := "Session terminated", data := none
        , extra := [("retriable", .jbool false)] }
    , extra := [("trace", .jstr "x")] }

/-- Witness for C4 at a concrete envelope. -/
theorem jsonrpc_message_roundtrip_witness :
    objEq1 (encodeMessage msgEx) fieldsEx := by
  apply jsonrpc_message_roundtrip fieldsEx msgEx (by decide)
  · intro ef hef
    simp only [fieldsEx, alookup] at hef
    injection hef with hef
    injection hef with hef
    rw [← hef]
    decide
  · rfl

/-! ## MCP data model (src/mcp_python/types.py, src/mcp_python/server/types.py)

Request/result payloads are carried only as far as the verified code paths
read them. -/

/-- Standard JSON-RPC error codes (types.py lines 131-136). -/
def PARSE_ERROR : Int := -32700

def INVALID_REQUEST : Int := -32600

def METHOD_NOT_FOUND : Int := -32601

def INVALID_PARAMS : Int := -32602

def INTERNAL_ERROR : Int := -32603

def LATEST_PROTOCOL_VERSION : String := "2024-10-07"

structure ImplementationM where
  name : String
  version : String
  deriving Repr, DecidableEq

/-- Modelled from the spec: `PromptsCapability` is imported by
server/__init__.py from mcp_python.types but its class body is not in the
source tree; per the spec it carries the configurable `listChanged` flag. -/
structure PromptsCapabilityM where
  listChanged : Bool
  deriving Repr, DecidableEq

/-- Modelled from the spec: `ResourcesCapability` (not in the source tree);
constructed by get_capabilities with `subscribe` and `listChanged` flags. -/
structure ResourcesCapabilityM where
  subscribe : Bool
  listChanged : Bool
  deriving Repr, DecidableEq

/-- Modelled from the spec: `ToolsCapability` (not in the source tree);
carries the configurable `listChanged` flag. -/
structure ToolsCapabilityM where
  listChanged : Bool
  deriving Repr, DecidableEq

/-- Modelled from the spec: `LoggingCapability` (not in the source tree);
constructed by get_capabilities with no arguments. -/
structure LoggingCapabilityM where
  deriving Repr, DecidableEq

structure ServerCapabilitiesM where
  experimental : Option (List (String × JObj))
  logging : Option LoggingCapabilityM
  prompts : Option PromptsCapabilityM
  resources : Option ResourcesCapabilityM
  tools : Option ToolsCapabilityM
  deriving Repr

structure ClientCapabilitiesM where
  experimental : Option (List (String × JObj))
  sampling : Option JObj
  extra : JObj
  deriving Repr

structure InitializeRequestParamsM where
  protocolVersion : RId
  capabilities : ClientCapabilitiesM
  clientInfo : ImplementationM
  deriving Repr

structure InitializeResultM where
  protocolVersion : RId
  capabilities : ServerCapabilitiesM
  serverInfo : ImplementationM
  deriving Repr

structure CallToolParamsM where
  name : String
  arguments : Option JObj
  deriving Repr

/-- Client-to-server requests, one constructor per pydantic request class in
the `ClientRequest` root model. -/
inductive ClientRequest where
  | PingRequest
  | InitializeRequest (params : InitializeRequestParamsM)
  | CompleteRequest
  | SetLevelRequest (level : String)
  | GetPromptRequest (name : String) (arguments : Option (List (String × String)))
  | ListPromptsRequest
  | ListResourcesRequest
  | ListResourceTemplatesRequest
  | ReadResourceRequest (uri : String)
  | SubscribeRequest (uri : String)
  | UnsubscribeRequest (uri : String)
  | CallToolRequest (params : CallToolParamsM)
  | ListToolsRequest
  deriving Repr

inductive ClientNotification where
  | ProgressNotification
  | InitializedNotification
  deriving Repr, DecidableEq

/-- `TextResourceContents | BlobResourceContents`. -/
inductive ResourceContentsM where
  | textRC (uri : String) (text : String) (mimeType : Option String)
  | blobRC (uri : String) (blob : String) (mimeType : Option String)
  deriving Repr, DecidableEq

/-- Content items produced by the call_tool decorator
(`TextContent | ImageContent | EmbeddedResource`). -/
inductive ContentItem where
  | textC (text : String)
  | imageC (data : String) (mimeType : String)
  | resourceC (resource : ResourceContentsM)
  deriving Repr, DecidableEq

structure CallToolResultM where
  content : List ContentItem
  isError : Bool
  deriving Repr, DecidableEq

/-- Server results, one constructor per pydantic result class in the
`ServerResult` root model; payloads not read by the verified code are kept
opaque. -/
inductive ServerResult where
  | EmptyResult
  | InitializeResult (r : InitializeResultM)
  | CompleteResult (payload : JObj)
  | GetPromptResult (payload : JObj)
  | ListPromptsResult (payload : JObj)
  | ListResourcesResult (payload : JObj)
  | ListResourceTemplatesResult (payload : JObj)
  | ReadResourceResult (payload : JObj)
  | CallToolResult (r : CallToolResultM)
  | ListToolsResult (payload : JObj)
  deriving Repr

/-! ## Server session initialization gate (src/mcp_python/server/session.py) -/

inductive InitializationState where
  | NotInitialized
  | Initializing
  | Initialized
  deriving Repr, DecidableEq

/-- `InitializationOptions` (src/mcp_python/server/types.py). -/
structure InitializationOptions where
  server_name : String
  server_version : String
  capabilities : ServerCapabilitiesM
  deriving Repr

/-- Outcome of `ServerSession._received_request`: `initialize` responds
directly and moves the state to `Initializing`; any other request raises
while the state is not `Initialized` and otherwise flows on to the handler
dispatch untouched. -/
inductive ReceivedRequestOutcome where
  | responded (st : InitializationState) (result : ServerResult)
  | passthrough (st : InitializationState)
  | raisedErr (msg : String)
  deriving Repr

/-- `ServerSession._received_request` (session.py lines 65-87). -/
def received_request (opts : InitializationOptions) (st : InitializationState)
    (req : ClientRequest) : ReceivedRequestOutcome :=
  match req with
  | .InitializeRequest _ =>
      .responded .Initializing
        (.InitializeResult
          { protocolVersion := .str LATEST_PROTOCOL_VERSION
          , capabilities := opts.capabilities
          , serverInfo :=
              { name := opts.server_name, version := opts.server_version } })
  | _ =>
      if st ≠ InitializationState.Initialized then
        .raisedErr "Received request before initialization was complete"
      else .passthrough st

/-- `ServerSession._received_notification` (session.py lines 89-99). -/
def received_notification (st : InitializationState) (n : ClientNotification) :
    Except String InitializationState :=
  match n with
  | .InitializedNotification => .ok .Initialized
  | _ =>
      if st ≠ InitializationState.Initialized then
        .error "Received notification before initialization was complete"
      else .ok st

inductive GateResult where
  | answeredResult (st : InitializationState) (r : ServerResult)
  | answeredError (st : InitializationState) (msg : String)
  | dispatched (st : InitializationState)
  deriving Repr

/-- Composite inbound-request gate.  `_received_request` itself is in the
source tree; what happens to the `RuntimeError` it raises lives in the
missing `mcp_python/shared/session.py`.  Modelled from the spec: a request
rejected by the initialization gate "is answered with an error and not
dispatched". -/
def gateInbound (opts : InitializationOptions) (st : InitializationState)
    (req : ClientRequest) : GateResult :=
  match received_request opts st req with
  | .responded st' r => .answeredResult st' r
  | .passthrough st' => .dispatched st'
  | .raisedErr msg => .answeredError st msg

/-! ## Handler dispatch (src/mcp_python/server/__init__.py lines 425-509,
src/src/mcp/server/__init__.py lines 351-434)

`request_handlers` is a dict keyed by request class; a handler is an async
function that either returns a `ServerResult` or raises (modelled as
`Except String`, the string being `str(err)`). -/

inductive RequestType where
  | PingRequest
  | InitializeRequest
  | CompleteRequest
  | SetLevelRequest
  | GetPromptRequest
  | ListPromptsRequest
  | ListResourcesRequest
  | ListResourceTemplatesRequest
  | ReadResourceRequest
  | SubscribeRequest
  | UnsubscribeRequest
  | CallToolRequest
  | ListToolsRequest
  deriving Repr, DecidableEq

/-- `type(req)` of a decoded client request. -/
def requestType : ClientRequest → RequestType
  | .PingRequest => .PingRequest
  | .InitializeRequest _ => .InitializeRequest
  | .CompleteRequest => .CompleteRequest
  | .SetLevelRequest _ => .SetLevelRequest
  | .GetPromptRequest _ _ => .GetPromptRequest
  | .ListPromptsRequest => .ListPromptsRequest
  | .ListResourcesRequest => .ListResourcesRequest
  | .ListResourceTemplatesRequest => .ListResourceTemplatesRequest
  | .ReadResourceRequest _ => .ReadResourceRequest
  | .SubscribeRequest _ => .SubscribeRequest
  | .UnsubscribeRequest _ => .UnsubscribeRequest
  | .CallToolRequest _ => .CallToolRequest
  | .ListToolsRequest => .ListToolsRequest

abbrev Handler := ClientRequest → Except String ServerResult

abbrev Handlers := List (RequestType × Handler)

/-- Dict lookup keyed by request type. -/
def rlookup {β : Type} (t : RequestType) : List (RequestType × β) → Option β
  | [] => none
  | (t', v) :: tl => if t' = t then some v else rlookup t tl

/-- `_ping_handler` (server/__init__.py bottom). -/
def ping_handler : Handler := fun _ => .ok .EmptyResult

/-- `Server.__init__` pre-registers only the ping handler. -/
def initialHandlers : Handlers := [(.PingRequest, ping_handler)]

inductive DispatchOutcome where
  | respondedRes (r : ServerResult)
  | respondedErr (e : ErrorDataM)
  | raised (msg : String)
  deriving Repr

/-- The per-request body of `Server.run`: look up the handler by request
type; on success respond with its result, on a handler exception respond
with `ErrorData(code=0, message=str(err))` unless `raise_exceptions`, in
which case re-raise; with no registered handler respond
`ErrorData(code=METHOD_NOT_FOUND, message="Method not found")`. -/
def handle_request_message (request_handlers : Handlers)
    (raise_exceptions : Bool) (req : ClientRequest) : DispatchOutcome :=
  match rlookup (requestType req) request_handlers with
  | some handler =>
      match handler req with
      | .ok response => .respondedRes response
      | .error err =>
          if raise_exceptions then .raised err
          else .respondedErr { code := 0, message := err, data := none, extra := [] }
  | none =>
      .respondedErr
        { code := METHOD_NOT_FOUND, message := "Method not found"
        , data := none, extra := [] }

/-! ## Server.get_capabilities (src/mcp_python/server/__init__.py lines
111-150, src/src/mcp/server/__init__.py lines 76-115) -/

structure NotificationOptions where
  prompts_changed : Bool
  resources_changed : Bool
  tools_changed : Bool
  deriving Repr, DecidableEq

def get_capabilities (request_handlers : Handlers)
    (notification_options : NotificationOptions)
    (experimental_capabilities : List (String × JObj)) : ServerCapabilitiesM :=
  let prompts_capability :=
    if (rlookup RequestType.ListPromptsRequest request_handlers).isSome then
      some { listChanged := notification_options.prompts_changed }
    else none
  let resources_capability :=
    if (rlookup RequestType.ListResourcesRequest request_handlers).isSome then
      some { subscribe := false
           , listChanged := notification_options.resources_changed }
    else none
  let tools_capability :=
    if (rlookup RequestType.ListToolsRequest request_handlers).isSome then
      some { listChanged := notification_options.tools_changed }
    else none
  let logging_capability :=
    if (rlookup RequestType.SetLevelRequest request_handlers).isSome then
      some LoggingCapabilityM.mk
    else none
  { prompts := prompts_capability
  , resources := resources_capability
  , tools := tools_capability
  , logging := logging_capability
  , experimental := some experimental_capabilities }

/-! ## Server.call_tool decorator (src/mcp_python/server/__init__.py lines
330-380, src/src/mcp/server/__init__.py lines 252-304) -/

/-- Elements of the sequence returned by a registered tool function:
`str | types.ImageContent | types.EmbeddedResource`. -/
inductive ToolOutputItem where
  | strOut (s : String)
  | imageOut (data : String) (mime_type : String)
  | resourceOut (resource : ResourceContentsM)
  deriving Repr, DecidableEq

/-- The per-element conversion inside the decorator's `for result in
results` match. -/
def convertToolItem : ToolOutputItem → ContentItem
  | .strOut s => .textC s
  | .imageOut d m => .imageC d m
  | .resourceOut r => .resourceC r

/-- A tool function: receives `req.params.name` and
`req.params.arguments or {}`; returns a sequence of items or raises. -/
abbrev ToolFunc := String → JObj → Except String (List ToolOutputItem)

/-- The handler the call_tool decorator registers: convert a normal return
into `CallToolResult(content, isError=False)`; catch any exception and
return `CallToolResult(content=[TextContent(text=str(e))], isError=True)`. -/
def call_tool_handler (func : ToolFunc) (p : CallToolParamsM) : ServerResult :=
  match func p.name (p.arguments.getD []) with
  | .ok results =>
      .CallToolResult { content := results.map convertToolItem, isError := false }
  | .error e =>
      .CallToolResult { content := [.textC e], isError := true }

/-- The registered handler as it sits in `request_handlers`; it never
raises (the try/except is inside). -/
def call_tool_registered (func : ToolFunc) : Handler := fun req =>
  match req with
  | .CallToolRequest p => .ok (call_tool_handler func p)
  | _ => .error "unexpected request type"

/-! ## ClientSession.initialize (src/mcp_python/client/session.py lines
58-97)

`SUPPORTED_PROTOCOL_VERSIONS` lives in the missing
mcp_python/shared/version.py; the flow is parameterized by that supported
set. -/

/-- Python `str()` of a `str | int` value. -/
def showRId : RId → String
  | .str s => s
  | .num n => toString n

/-- The exact initialize request the client sends: latest protocol version,
capabilities with `roots={"listChanged": True}` passed as an extra field,
and `clientInfo=Implementation(name="mcp_python", version="0.1.0")`. -/
def initializeRequestSent : InitializeRequestParamsM :=
  { protocolVersion := .str LATEST_PROTOCOL_VERSION
  , capabilities :=
      { experimental := none, sampling := none
      , extra := [("roots", .jobj [("listChanged", .jbool true)])] }
  , clientInfo := { name := "mcp_python", version := "0.1.0" } }

inductive ClientInitOutcome where
  | failed (msg : String)
  | succeeded (result : InitializeResultM)
  deriving Repr

structure ClientInitRun where
  sentRequest : ClientRequest
  sentInitializedNotification : Bool
  outcome : ClientInitOutcome
  deriving Repr

/-- `ClientSession.initialize`: send the initialize request; if the
server's `protocolVersion` is not in the supported set raise a
`RuntimeError` without sending `notifications/initialized`; otherwise send
the initialized notification and return the result. -/
def initializeClient (supported : List RId) (serverResult : InitializeResultM) :
    ClientInitRun :=
  let req := ClientRequest.InitializeRequest initializeRequestSent
  if serverResult.protocolVersion ∈ supported then
    { sentRequest := req, sentInitializedNotification := true
    , outcome := .succeeded serverResult }
  else
    { sentRequest := req, sentInitializedNotification := false
    , outcome := .failed ("Unsupported protocol version from the server: "
        ++ showRId serverResult.protocolVersion) }

/-! ## Streamable HTTP client transport
(src/src/mcp/client/streamable_http.py) -/

def MCP_SESSION_ID_HEADER : String := "mcp-session-id"

abbrev Headers := List (String × String)

/-- Python dict assignment `headers[k] = v` on a copied dict. -/
def setHeader (hs : Headers) (k v : String) : Headers :=
  (hs.filter fun p => p.1 != k) ++ [(k, v)]

/-- Lines 104-107: `post_headers = request_headers.copy(); if session_id:
post_headers[MCP_SESSION_ID_HEADER] = session_id` (the empty string is
falsy and adds no header). -/
def postHeadersFor (request_headers : Headers) (session_id : Option String) :
    Headers :=
  match session_id with
  | some sid =>
      if sid.isEmpty then request_headers
      else setHeader request_headers MCP_SESSION_ID_HEADER sid
  | none => request_headers

def isRequestMsg : JMsg → Bool
  | .request _ => true
  | _ => false

/-- `isinstance(message.root, JSONRPCRequest) and message.root.method ==
"initialize"` (lines 112-115). -/
def isInitializationMsg : JMsg → Bool
  | .request r => r.method == "initialize"
  | _ => false

structure HttpResponse where
  status : Nat
  sessionHeader : Option String
  deriving Repr, DecidableEq

/-- The 404 branch of post_writer (lines 133-147): for an in-flight request
the client synthesizes a JSONRPCError carrying the same id, error code
32600 and message "Session terminated", delivered on the read stream; for
other message kinds nothing is synthesized (raise_for_status raises
instead). -/
def synthesized404Error (msg : JMsg) : Option JMsg :=
  match msg with
  | .request r =>
      some (.errorResp
        { id := r.id
        , error := { code := 32600, message := "Session terminated"
                   , data := none, extra := [] }
        , extra := [] })
  | _ => none

/-- The post_writer loop (lines 99-207), restricted to the headers it sends
and the recorded session id.  Each trace element pairs the outgoing message
with the HTTP response it received.  Output: for every POST actually
issued, the session id recorded at emission together with the headers sent;
plus the final recorded session id.  A 202 only continues; a 404 continues
for requests (after synthesizing the error) and otherwise aborts via
raise_for_status; any other status of 400 and above aborts; otherwise an
initialize response carrying a non-empty mcp-session-id header records it. -/
def postLoop (request_headers : Headers) (sid : Option String) :
    List (JMsg × HttpResponse) → List (Option String × Headers) × Option String
  | [] => ([], sid)
  | (m, resp) :: rest =>
    let emitted := (sid, postHeadersFor request_headers sid)
    if resp.status == 202 then
      let r := postLoop request_headers sid rest
      (emitted :: r.1, r.2)
    else if resp.status == 404 then
      if isRequestMsg m then
        let r := postLoop request_headers sid rest
        (emitted :: r.1, r.2)
      else ([emitted], sid)
    else if 400 ≤ resp.status then ([emitted], sid)
    else
      let sid2 :=
        if isInitializationMsg m then
          match resp.sessionHeader with
          | some t => if t.isEmpty then sid else some t
          | none => sid
        else sid
      let r := postLoop request_headers sid2 rest
      (emitted :: r.1, r.2)

inductive TerminateAction where
  | noRequest
  | deleteWith (headers : Headers)
  deriving Repr, DecidableEq

/-- `terminate_session` (lines 209-232): no session id recorded (or the
falsy empty string) means no request; otherwise a DELETE carrying the
mcp-session-id header. -/
def terminate_session (request_headers : Headers)
    (session_id : Option String) : TerminateAction :=
  match session_id with
  | none => .noRequest
  | some sid =>
      if sid.isEmpty then .noRequest
      else .deleteWith (setHeader request_headers MCP_SESSION_ID_HEADER sid)

theorem alookup_filter_ne {β : Type} (k : String) (hs : List (String × β)) :
    alookup k (hs.filter fun p => p.1 != k) = none := by
  induction hs with
  | nil => rfl
  | cons q t ih =>
    rw [List.filter_cons]
    by_cases hq : q.1 = k
    · have hb : (q.1 != k) = false := by simp [hq]
      simp only [hb, Bool.false_eq_true, if_false]
      exact ih
    · have hb : (q.1 != k) = true := by simp [hq]
      simp only [hb, if_true]
      rw [show alookup k ((q.1, q.2) :: t.filter fun p => p.1 != k) =
            if q.1 = k then some q.2 else alookup k (t.filter fun p => p.1 != k)
          from rfl, if_neg hq]
      exact ih

theorem alookup_setHeader (hs : Headers) (k v : String) :
    alookup k (setHeader hs k v) = some v := by
  unfold setHeader
  rw [alookup_append, alookup_filter_ne]
  show (if k = k then some v else alookup k []) = some v
  rw [if_pos rfl]

/-! ## Claim theorems -/

def emptyCapabilities : ServerCapabilitiesM :=
  { experimental := none, logging := none, prompts := none
  , resources := none, tools := none }

def optsEx : InitializationOptions :=
  { server_name := "mcp_python", server_version := "0.1.0"
  , capabilities := emptyCapabilities }

/-- C1 counterexample: the claim admits ping requests while the state is
not Initialized, but `_received_request` has no ping arm: a ping arriving
in `NotInitialized` hits the catch-all and is rejected with an error
(RuntimeError "Received request before initialization was complete"), so
ping is not admissible. -/
theorem ping_preinit_rejected :
    gateInbound optsEx .NotInitialized .PingRequest =
      .answeredError .NotInitialized
        "Received request before initialization was complete" := rfl

/-- C1 amended: while the initialization state is not Initialized, only the
initialize request is admissible: every other request, ping included, is
answered with an error and not dispatched to a handler; and only the
notifications/initialized notification is accepted, any other notification
is rejected. -/
theorem init_gate_amended (opts : InitializationOptions)
    (st : InitializationState) (req : ClientRequest)
    (hst : st ≠ InitializationState.Initialized) :
    ((∀ p, req ≠ .InitializeRequest p) →
      gateInbound opts st req =
        .answeredError st "Received request before initialization was complete")
    ∧ (∀ n, n ≠ ClientNotification.InitializedNotification →
        received_notification st n =
          .error "Received notification before initialization was complete")
    ∧ received_notification st .InitializedNotification = .ok .Initialized := by
  refine ⟨?_, ?_, rfl⟩
  · intro hreq
    cases req with
    | InitializeRequest p => exact absurd rfl (hreq p)
    | _ => simp [gateInbound, received_request, hst]
  · intro n hn
    cases n with
    | InitializedNotification => exact absurd rfl hn
    | ProgressNotification => simp [received_notification, hst]

/-- Witness for the amended C1 at concrete inputs. -/
theorem init_gate_amended_witness :
    gateInbound optsEx .NotInitialized .PingRequest =
      .answeredError .NotInitialized
        "Received request before initialization was complete"
    ∧ received_notification .NotInitialized .ProgressNotification =
      .error "Received notification before initialization was complete" :=
  ⟨(init_gate_amended optsEx .NotInitialized .PingRequest (by decide)).1
      (fun p h => by cases h),
   (init_gate_amended optsEx .NotInitialized .PingRequest (by decide)).2.1
      .ProgressNotification (by decide)⟩

/-- C9: when the server session receives an initialize request, it
transitions its initialization state to Initializing and responds with an
InitializeResult containing the server's latest protocol version, the
capabilities from its initialization options, and serverInfo whose name and
version are the configured server name and server version. -/
theorem server_initialize_response (opts : InitializationOptions)
    (st : InitializationState) (p : InitializeRequestParamsM) :
    received_request opts st (.InitializeRequest p) =
      .responded .Initializing
        (.InitializeResult
          { protocolVersion := .str LATEST_PROTOCOL_VERSION
          , capabilities := opts.capabilities
          , serverInfo :=
              { name := opts.server_name, version := opts.server_version } }) :=
  rfl

/-- C5: for every inbound request whose method has no registered request
handler, the server dispatch settles the responder with a JSON-RPC error
whose code is -32601 (METHOD_NOT_FOUND) and whose message is "Method not
found", and invokes no handler. -/
theorem unknown_method_not_found (request_handlers : Handlers) (b : Bool)
    (req : ClientRequest)
    (h : rlookup (requestType req) request_handlers = none) :
    handle_request_message request_handlers b req =
      .respondedErr
        { code := -32601, message := "Method not found"
        , data := none, extra := [] } := by
  unfold handle_request_message
  rw [h]
  rfl

/-- Witness for C5: completion/complete with only the default ping handler
registered. -/
theorem unknown_method_not_found_witness :
    handle_request_message initialHandlers false .CompleteRequest =
      .respondedErr
        { code := -32601, message := "Method not found"
        , data := none, extra := [] } :=
  unknown_method_not_found initialHandlers false .CompleteRequest rfl

/-- C6: for every inbound request whose registered handler raises: when
raise_exceptions is false the responder is settled with a JSON-RPC error of
code 0 whose message is the exception's message; when raise_exceptions is
true the exception propagates instead of producing an error response. -/
theorem handler_exception_code_zero (request_handlers : Handlers)
    (req : ClientRequest) (h : Handler) (e : String)
    (hl : rlookup (requestType req) request_handlers = some h)
    (he : h req = .error e) :
    handle_request_message request_handlers false req =
      .respondedErr { code := 0, message := e, data := none, extra := [] }
    ∧ handle_request_message request_handlers true req = .raised e := by
  constructor <;> simp [handle_request_message, hl, he]

def failing_handler : Handler := fun _ => .error "boom"

/-- Witness for C6: a handler that raises "boom". -/
theorem handler_exception_code_zero_witness :
    handle_request_message [(.CompleteRequest, failing_handler)] false
        .CompleteRequest =
      .respondedErr { code := 0, message := "boom", data := none, extra := [] }
    ∧ handle_request_message [(.CompleteRequest, failing_handler)] true
        .CompleteRequest = .raised "boom" :=
  handler_exception_code_zero [(.CompleteRequest, failing_handler)]
    .CompleteRequest failing_handler "boom" rfl rfl

/-- C7: get_capabilities returns a ServerCapabilities in which the tools
capability is present iff a tools/list handler is registered (with
listChanged equal to the given notification option), the prompts capability
is present iff a prompts/list handler is registered, the resources
capability is present iff a resources/list handler is registered, and the
logging capability is present iff a logging/setLevel handler is registered;
each capability without a registered handler is None. -/
theorem get_capabilities_spec (hs : Handlers) (opts : NotificationOptions)
    (exp : List (String × JObj)) :
    ((get_capabilities hs opts exp).tools.isSome
        ↔ (rlookup RequestType.ListToolsRequest hs).isSome)
    ∧ (∀ tc, (get_capabilities hs opts exp).tools = some tc →
        tc.listChanged = opts.tools_changed)
    ∧ ((get_capabilities hs opts exp).prompts.isSome
        ↔ (rlookup RequestType.ListPromptsRequest hs).isSome)
    ∧ ((get_capabilities hs opts exp).resources.isSome
        ↔ (rlookup RequestType.ListResourcesRequest hs).isSome)
    ∧ ((get_capabilities hs opts exp).logging.isSome
        ↔ (rlookup RequestType.SetLevelRequest hs).isSome) := by
  refine ⟨?_, ?_, ?_, ?_, ?_⟩
  · cases h : (rlookup RequestType.ListToolsRequest hs).isSome <;>
      simp [get_capabilities, h]
  · intro tc htc
    cases h : (rlookup RequestType.ListToolsRequest hs).isSome <;>
        simp [get_capabilities, h] at htc
    rw [← htc]
  · cases h : (rlookup RequestType.ListPromptsRequest hs).isSome <;>
      simp [get_capabilities, h]
  · cases h : (rlookup RequestType.ListResourcesRequest hs).isSome <;>
      simp [get_capabilities, h]
  · cases h : (rlookup RequestType.SetLevelRequest hs).isSome <;>
      simp [get_capabilities, h]

def handlersEx : Handlers :=
  [(.PingRequest, ping_handler),
   (.ListToolsRequest, fun _ => .ok (.ListToolsResult [])),
   (.SetLevelRequest, fun _ => .ok .EmptyResult)]

def notifOptsEx : NotificationOptions :=
  { prompts_changed := false, resources_changed := false
  , tools_changed := true }

/-- Witness for C7: tools and logging handlers registered, prompts not. -/
theorem get_capabilities_spec_witness :
    (get_capabilities handlersEx notifOptsEx []).tools.isSome = true
    ∧ (get_capabilities handlersEx notifOptsEx []).prompts.isSome = false
    ∧ (get_capabilities handlersEx notifOptsEx []).logging.isSome = true := by
  have h := get_capabilities_spec handlersEx notifOptsEx []
  refine ⟨h.1.mpr (by decide), ?_, h.2.2.2.2.mpr (by decide)⟩
  have hq : ¬((rlookup RequestType.ListPromptsRequest handlersEx).isSome = true) := by
    decide
  exact Bool.eq_false_iff.mpr fun hp => hq (h.2.2.1.mp hp)

/-- C10: for every tools/call request dispatched to a tool function
registered via the call_tool decorator: a normal return yields a
CallToolResult with isError false and the content converted from the
returned sequence; a raised exception yields a CallToolResult with isError
true whose single text content is the exception's message; in both cases
the dispatch responds with a successful result, never with a code-0
JSON-RPC error response. -/
theorem call_tool_behavior (func : ToolFunc) (p : CallToolParamsM) (b : Bool) :
    (∀ outs, func p.name (p.arguments.getD []) = .ok outs →
      call_tool_handler func p =
        .CallToolResult { content := outs.map convertToolItem, isError := false })
    ∧ (∀ e, func p.name (p.arguments.getD []) = .error e →
      call_tool_handler func p =
        .CallToolResult { content := [.textC e], isError := true })
    ∧ handle_request_message
        [(.PingRequest, ping_handler),
         (.CallToolRequest, call_tool_registered func)]
        b (.CallToolRequest p) =
      .respondedRes (call_tool_handler func p) := by
  refine ⟨?_, ?_, ?_⟩
  · intro outs h
    unfold call_tool_handler
    rw [h]
  · intro e h
    unfold call_tool_handler
    rw [h]
  · rfl

def toolFuncEx : ToolFunc := fun name _ =>
  if name = "boom" then .error "boom failed"
  else .ok [.strOut ("Echo: " ++ name)]

/-- Witness for C10 on a tool that echoes or raises. -/
theorem call_tool_behavior_witness :
    call_tool_handler toolFuncEx { name := "hi", arguments := none } =
      .CallToolResult { content := [.textC "Echo: hi"], isError := false }
    ∧ call_tool_handler toolFuncEx { name := "boom", arguments := none } =
      .CallToolResult { content := [.textC "boom failed"], isError := true }
    ∧ handle_request_message
        [(.PingRequest, ping_handler),
         (.CallToolRequest, call_tool_registered toolFuncEx)]
        false (.CallToolRequest { name := "boom", arguments := none }) =
      .respondedRes
        (call_tool_handler toolFuncEx { name := "boom", arguments := none }) :=
  ⟨(call_tool_behavior toolFuncEx { name := "hi", arguments := none } false).1
      [.strOut "Echo: hi"] rfl,
   (call_tool_behavior toolFuncEx { name := "boom", arguments := none } false).2.1
      "boom failed" rfl,
   (call_tool_behavior toolFuncEx { name := "boom", arguments := none } false).2.2⟩

/-- C2: ClientSession.initialize sends an initialize request; if the
protocolVersion in the server's result is not in the client's supported
set, initialize fails with a terminal error and does not send
notifications/initialized; otherwise it sends the notifications/initialized
notification and returns the result. -/
theorem client_initialize_flow (supported : List RId)
    (res : InitializeResultM) :
    (initializeClient supported res).sentRequest =
      .InitializeRequest initializeRequestSent
    ∧ (res.protocolVersion ∉ supported →
        (initializeClient supported res).outcome =
          .failed ("Unsupported protocol version from the server: "
            ++ showRId res.protocolVersion)
        ∧ (initializeClient supported res).sentInitializedNotification = false)
    ∧ (res.protocolVersion ∈ supported →
        (initializeClient supported res).outcome = .succeeded res
        ∧ (initializeClient supported res).sentInitializedNotification = true) := by
  refine ⟨?_, ?_, ?_⟩
  · unfold initializeClient
    split <;> rfl
  · intro h
    unfold initializeClient
    rw [if_neg h]
    exact ⟨rfl, rfl⟩
  · intro h
    unfold initializeClient
    rw [if_pos h]
    exact ⟨rfl, rfl⟩

def serverResultOk : InitializeResultM :=
  { protocolVersion := .str LATEST_PROTOCOL_VERSION
  , capabilities := emptyCapabilities
  , serverInfo := { name := "srv", version := "1" } }

def serverResultBad : InitializeResultM :=
  { protocolVersion := .str "1999-01-01"
  , capabilities := emptyCapabilities
  , serverInfo := { name := "srv", version := "1" } }

/-- Witness for C2: a supported and an unsupported server version. -/
theorem client_initialize_flow_witness :
    (initializeClient [RId.str LATEST_PROTOCOL_VERSION] serverResultOk).outcome
      = .succeeded serverResultOk
    ∧ (initializeClient [RId.str LATEST_PROTOCOL_VERSION]
        serverResultOk).sentInitializedNotification = true
    ∧ (initializeClient [RId.str LATEST_PROTOCOL_VERSION]
        serverResultBad).sentInitializedNotification = false := by
  have h1 := (client_initialize_flow [RId.str LATEST_PROTOCOL_VERSION]
    serverResultOk).2.2 (by decide)
  have h2 := (client_initialize_flow [RId.str LATEST_PROTOCOL_VERSION]
    serverResultBad).2.1 (by decide)
  exact ⟨h1.1, h1.2, h2.2⟩

/-- C3 (code evaluation): on a 404 answer to a POSTed request, the client
synthesizes a JSON-RPC error envelope with the same id and message
"Session terminated" — but its error code is the positive literal 32600,
not the standard InvalidRequest code -32600 defined by the repository's own
INVALID_REQUEST constant. -/
theorem streamable_http_404_code_eval :
    synthesized404Error
        (.request { id := .num 1, method := "tools/list"
                  , params := none, extra := [] }) =
      some (.errorResp
        { id := .num 1
        , error := { code := 32600, message := "Session terminated"
                   , data := none, extra := [] }
        , extra := [] })
    ∧ (32600 : Int) ≠ INVALID_REQUEST :=
  ⟨rfl, by decide⟩

/-! ### C8: session-id header invariant of the post loop -/

/-- The recorded session id is never the falsy empty string. -/
def SessOk : Option String → Prop
  | none => True
  | some s => s.isEmpty = false

/-- Invariant bundle for a run of the post loop from state `sid`: every
issued POST carries exactly the session id recorded at its emission, the
final state is well-formed, and a recorded token originates from an
initialize response in the trace (or was recorded before). -/
def PostLoopOk (request_headers : Headers)
    (trace : List (JMsg × HttpResponse)) (sid : Option String) : Prop :=
  (∀ p ∈ (postLoop request_headers sid trace).1,
      alookup MCP_SESSION_ID_HEADER p.2 = p.1)
  ∧ SessOk (postLoop request_headers sid trace).2
  ∧ (∀ s, (postLoop request_headers sid trace).2 = some s →
      sid = some s ∨ ∃ step ∈ trace, isInitializationMsg step.1 ∧
        step.2.sessionHeader = some s)

theorem postHeaders_lookup (request_headers : Headers)
    (hbase : alookup MCP_SESSION_ID_HEADER request_headers = none)
    (sid : Option String) (hsid : SessOk sid) :
    alookup MCP_SESSION_ID_HEADER (postHeadersFor request_headers sid) = sid := by
  cases sid with
  | none => exact hbase
  | some s =>
    have hs : s.isEmpty = false := hsid
    unfold postHeadersFor
    dsimp only
    rw [hs, if_neg (by decide)]
    rw [alookup_setHeader request_headers MCP_SESSION_ID_HEADER s]

theorem postLoopOk_cons_same (request_headers : Headers) (m : JMsg)
    (resp : HttpResponse) (rest : List (JMsg × HttpResponse))
    (sid : Option String)
    (hemit : alookup MCP_SESSION_ID_HEADER (postHeadersFor request_headers sid)
      = sid)
    (hrec : PostLoopOk request_headers rest sid)
    (heq : postLoop request_headers sid ((m, resp) :: rest) =
      ((sid, postHeadersFor request_headers sid) ::
        (postLoop request_headers sid rest).1,
       (postLoop request_headers sid rest).2)) :
    PostLoopOk request_headers ((m, resp) :: rest) sid := by
  obtain ⟨ih1, ih2, ih3⟩ := hrec
  unfold PostLoopOk
  rw [heq]
  refine ⟨?_, ih2, ?_⟩
  · intro p hp
    rcases List.mem_cons.mp hp with hp | hp
    · rw [hp]
      exact hemit
    · exact ih1 p hp
  · intro s hs
    rcases ih3 s hs with h | ⟨st, hst, h1, h2⟩
    · exact Or.inl h
    · exact Or.inr ⟨st, List.mem_cons_of_mem _ hst, h1, h2⟩

theorem postLoopOk_cons_abort (request_headers : Headers) (m : JMsg)
    (resp : HttpResponse) (rest : List (JMsg × HttpResponse))
    (sid : Option String) (hsid : SessOk sid)
    (hemit : alookup MCP_SESSION_ID_HEADER (postHeadersFor request_headers sid)
      = sid)
    (heq : postLoop request_headers sid ((m, resp) :: rest) =
      ([(sid, postHeadersFor request_headers sid)], sid)) :
    PostLoopOk request_headers ((m, resp) :: rest) sid := by
  unfold PostLoopOk
  rw [heq]
  refine ⟨?_, hsid, fun s hs => Or.inl hs⟩
  intro p hp
  rcases List.mem_cons.mp hp with hp | hp
  · rw [hp]
    exact hemit
  · exact absurd hp (List.not_mem_nil p)

theorem postLoopOk_cons_update (request_headers : Headers) (m : JMsg)
    (resp : HttpResponse) (rest : List (JMsg × HttpResponse))
    (sid : Option String) (t : String)
    (hemit : alookup MCP_SESSION_ID_HEADER (postHeadersFor request_headers sid)
      = sid)
    (him : isInitializationMsg m = true)
    (hh : resp.sessionHeader = some t)
    (hrec : PostLoopOk request_headers rest (some t))
    (heq : postLoop request_headers sid ((m, resp) :: rest) =
      ((sid, postHeadersFor request_headers sid) ::
        (postLoop request_headers (some t) rest).1,
       (postLoop request_headers (some t) rest).2)) :
    PostLoopOk request_headers ((m, resp) :: rest) sid := by
  obtain ⟨ih1, ih2, ih3⟩ := hrec
  unfold PostLoopOk
  rw [heq]
  refine ⟨?_, ih2, ?_⟩
  · intro p hp
    rcases List.mem_cons.mp hp with hp | hp
    · rw [hp]
      exact hemit
    · exact ih1 p hp
  · intro s hs
    rcases ih3 s hs with h | ⟨st, hst, h1, h2⟩
    · injection h with h
      exact Or.inr ⟨(m, resp), List.mem_cons_self _ _, him, by rw [hh, h]⟩
    · exact Or.inr ⟨st, List.mem_cons_of_mem _ hst, h1, h2⟩

theorem postLoop_invariant (request_headers : Headers)
    (hbase : alookup MCP_SESSION_ID_HEADER request_headers = none)
    (trace : List (JMsg × HttpResponse)) :
    ∀ sid, SessOk sid → PostLoopOk request_headers trace sid := by
  induction trace with
  | nil =>
    intro sid hsid
    refine ⟨?_, hsid, ?_⟩
    · intro p hp
      simp [postLoop] at hp
    · intro s hs
      exact Or.inl (by simpa [postLoop] using hs)
  | cons step rest ih =>
    obtain ⟨m, resp⟩ := step
    intro sid hsid
    have hemit := postHeaders_lookup request_headers hbase sid hsid
    by_cases h202 : (resp.status == 202) = true
    · exact postLoopOk_cons_same request_headers m resp rest sid hemit
        (ih sid hsid) (by simp [postLoop, h202])
    · by_cases h404 : (resp.status == 404) = true
      · by_cases hreqm : isRequestMsg m = true
        · exact postLoopOk_cons_same request_headers m resp rest sid hemit
            (ih sid hsid) (by simp [postLoop, h202, h404, hreqm])
        · exact postLoopOk_cons_abort request_headers m resp rest sid hsid hemit
            (by simp [postLoop, h202, h404, hreqm])
      · by_cases h400 : 400 ≤ resp.status
        · exact postLoopOk_cons_abort request_headers m resp rest sid hsid hemit
            (by simp [postLoop, h202, h404, h400])
        · by_cases him : isInitializationMsg m = true
          · cases hh : resp.sessionHeader with
            | none =>
              exact postLoopOk_cons_same request_headers m resp rest sid hemit
                (ih sid hsid) (by simp [postLoop, h202, h404, h400, him, hh])
            | some t =>
              by_cases ht : t.isEmpty = true
              · exact postLoopOk_cons_same request_headers m resp rest sid hemit
                  (ih sid hsid)
                  (by simp [postLoop, h202, h404, h400, him, hh, ht])
              · have htf : t.isEmpty = false := by
                  cases hb : t.isEmpty
                  · rfl
                  · exact absurd hb ht
                exact postLoopOk_cons_update request_headers m resp rest sid t
                  hemit him hh (ih (some t) htf)
                  (by simp [postLoop, h202, h404, h400, him, hh, htf])
          · exact postLoopOk_cons_same request_headers m resp rest sid hemit
              (ih sid hsid) (by simp [postLoop, h202, h404, h400, him])

/-- C8: once the transport has recorded the session token from the
mcp-session-id header of the initialize response, every subsequent POST
carries an mcp-session-id header equal to exactly the recorded token, the
DELETE issued by terminate_session carries that token, and POSTs made
before any token is recorded carry no such header. -/
theorem streamable_http_session_header (request_headers : Headers)
    (hbase : alookup MCP_SESSION_ID_HEADER request_headers = none)
    (trace : List (JMsg × HttpResponse)) :
    (∀ p ∈ (postLoop request_headers none trace).1,
        alookup MCP_SESSION_ID_HEADER p.2 = p.1)
    ∧ (∀ s, (postLoop request_headers none trace).2 = some s →
        s.isEmpty = false
        ∧ ∃ step ∈ trace, isInitializationMsg step.1 ∧
            step.2.sessionHeader = some s)
    ∧ (∀ s, (postLoop request_headers none trace).2 = some s →
        terminate_session request_headers
            ((postLoop request_headers none trace).2)
          = .deleteWith (setHeader request_headers MCP_SESSION_ID_HEADER s)
        ∧ alookup MCP_SESSION_ID_HEADER
            (setHeader request_headers MCP_SESSION_ID_HEADER s) = some s)
    ∧ ((postLoop request_headers none trace).2 = none →
        terminate_session request_headers none = .noRequest) := by
  obtain ⟨h1, h2, h3⟩ := postLoop_invariant request_headers hbase trace none
    trivial
  refine ⟨h1, ?_, ?_, fun _ => rfl⟩
  · intro s hs
    have hsok : SessOk (some s) := hs ▸ h2
    rcases h3 s hs with h | hex
    · exact absurd h (by simp)
    · exact ⟨hsok, hex⟩
  · intro s hs
    have hsok : SessOk (some s) := hs ▸ h2
    have hne : s.isEmpty = false := hsok
    rw [hs]
    unfold terminate_session
    dsimp only
    rw [hne, if_neg (by decide)]
    exact ⟨rfl, alookup_setHeader request_headers MCP_SESSION_ID_HEADER s⟩

def baseHeadersEx : Headers :=
  [("Accept", "application/json, text/event-stream"),
   ("Content-Type", "application/json")]

def initMsgEx : JMsg :=
  .request { id := .num 0, method := "initialize", params := none, extra := [] }

def listToolsMsgEx : JMsg :=
  .request { id := .num 1, method := "tools/list", params := none, extra := [] }

def traceEx : List (JMsg × HttpResponse) :=
  [(listToolsMsgEx, { status := 200, sessionHeader := none }),
   (initMsgEx, { status := 200, sessionHeader := some "abc123" }),
   (listToolsMsgEx, { status := 200, sessionHeader := none })]

/-- Witness for C8: a trace with one POST before and one after the
initialize response that records "abc123". -/
theorem streamable_http_session_header_witness :
    (∀ p ∈ (postLoop baseHeadersEx none traceEx).1,
        alookup MCP_SESSION_ID_HEADER p.2 = p.1)
    ∧ terminate_session baseHeadersEx ((postLoop baseHeadersEx none traceEx).2)
      = .deleteWith (setHeader baseHeadersEx MCP_SESSION_ID_HEADER "abc123") := by
  have h := streamable_http_session_header baseHeadersEx rfl traceEx
  exact ⟨h.1, (h.2.2.1 "abc123" rfl).1⟩

end MCP

